import Mathlib

/-!
Verification of the parking-lot core of
`The_Automated_Parking_Lot_System.py`.

The Python model classes (`VehicleType`, `Vehicle`, `ParkingLot`) and the
model-facing parts of the GUI controller (`AutomatedParkingLotSystem`) are
embedded as executable Lean definitions.  Timestamps are rational numbers of
seconds (the Python code subtracts `datetime` values and divides
`total_seconds()` by 3600); the caller-visible `datetime.now()` of each
operation is passed in explicitly as `now`.  The GUI-only attribute `color`
(a random display color) carries no model information and is omitted.
-/

namespace AutoParking

/-- `VehicleType` enum, lines 15-20 of the source. -/
inductive VehicleType
  | car
  | bike
  | truck
  | suv
deriving DecidableEq

/-- The `rates` table inside `Vehicle.get_parking_fee`, lines 51-56. -/
def hourlyRate : VehicleType → ℚ
  | .car => 2
  | .bike => 1
  | .truck => 3
  | .suv => 5 / 2

/-- The `Vehicle` class, lines 22-30 (minus the random display color).
`entry_time` and `slot_number` start as `None` and are set at parking. -/
structure Vehicle where
  vehicle_id : String
  vehicle_type : VehicleType
  owner_name : String
  entry_time : Option ℚ
  slot_number : Option Nat
deriving DecidableEq

/-- `Vehicle.__init__` (lines 24-29): fresh vehicle with no entry time and
no slot. -/
def mkVehicle (vehicle_id : String) (t : VehicleType) (owner_name : String) : Vehicle :=
  ⟨vehicle_id, t, owner_name, none, none⟩

/-- `Vehicle.get_parking_fee`, lines 42-59.  `hours_parked = max(1, Δt/3600)`
then `(hours_parked + 0.99) // 1` (floor), times the category rate.
Returns `0` when `entry_time` was never set (lines 44-45). -/
def get_parking_fee (v : Vehicle) (exit_time : ℚ) : ℚ :=
  match v.entry_time with
  | none => 0
  | some entry =>
      (⌊max 1 ((exit_time - entry) / 3600) + 99 / 100⌋ : ℚ) * hourlyRate v.vehicle_type

/-- The fee exactly as the specification words it (§4.1 release):
`ceil(max(elapsed, 1.0))` billable hours times the category's hourly rate.
This is the spec-side definition used to compare against
`get_parking_fee`, which embeds the source formula. -/
def spec_fee (entry exit_time : ℚ) (t : VehicleType) : ℚ :=
  (⌈max 1 ((exit_time - entry) / 3600)⌉ : ℚ) * hourlyRate t

/-- The `ParkingLot` class state, lines 93-101.  `vehicles` is the Python
dict `{vehicle_id: vehicle}` as an insertion-ordered association list.
`capacity` is an `Int` because `ParkingLot.__init__` accepts any integer
without validation. -/
structure ParkingLot where
  capacity : Int
  slots : List (Option Vehicle)
  vehicles : List (String × Vehicle)
  hourly_rate : ℚ
  revenue : ℚ
  total_vehicles : Nat
deriving DecidableEq

/-- `ParkingLot.__init__`, lines 95-101: `slots = [None] * capacity`
(the empty list when `capacity ≤ 0` — Python list repetition), empty dict,
rate 2.0, zero revenue and counter.  No capacity validation is performed
by the source. -/
def mkParkingLot (capacity : Int) : ParkingLot :=
  ⟨capacity, List.replicate capacity.toNat none, [], 2, 0, 0⟩

/-- `ParkingLot.is_full`, lines 137-139: all slots non-`None`. -/
def is_full (lot : ParkingLot) : Bool :=
  lot.slots.all Option.isSome

/-- `ParkingLot.is_empty`, lines 141-143: all slots `None`. -/
def is_empty (lot : ParkingLot) : Bool :=
  lot.slots.all Option.isNone

/-- The scan `for slot_number in range(self.capacity): if self.slots[slot_number] is None`
of `park_vehicle` (lines 108-109): index of the first empty cell of the slot
list (which has length `capacity` in every state the class constructs). -/
def firstFree : List (Option Vehicle) → Option Nat
  | [] => none
  | none :: _ => some 0
  | some _ :: rest => (firstFree rest).map (· + 1)

/-- Python `key in dict` on the `vehicles` dict. -/
def containsKey (m : List (String × Vehicle)) (k : String) : Bool :=
  m.any (fun p => p.1 == k)

/-- Python `dict[key] = value`: replace in place when the key exists
(keeping its insertion position), otherwise append. -/
def dictInsert (m : List (String × Vehicle)) (k : String) (v : Vehicle) : List (String × Vehicle) :=
  if containsKey m k then m.map (fun p => if p.1 == k then (k, v) else p)
  else m ++ [(k, v)]

/-- Python `dict[key]` lookup on the `vehicles` dict. -/
def lookupVal (m : List (String × Vehicle)) (k : String) : Option Vehicle :=
  (m.find? (fun p => p.1 == k)).map Prod.snd

/-- Python `del dict[key]` on the `vehicles` dict. -/
def delKey (m : List (String × Vehicle)) (k : String) : List (String × Vehicle) :=
  m.filter (fun p => !(p.1 == k))

/-- Error outcomes of the embedded operations: `ParkingLotFullError`
(lines 10-13), the `ValueError` of `remove_vehicle` (line 122), and the
two GUI-level rejections of `AutomatedParkingLotSystem.park_vehicle`
(empty id, line 904; duplicate id, line 914). -/
inductive LotError
  | lotFull
  | notFound
  | emptyId
  | duplicate
deriving DecidableEq

/-- `ParkingLot.park_vehicle`, lines 103-117: raise when full, otherwise
put the vehicle in the first empty cell, stamp its entry time and 1-based
slot number, insert it into the dict, bump the all-time counter, and
return the slot number.  There is no duplicate-identifier check here. -/
def park_vehicle (lot : ParkingLot) (v : Vehicle) (now : ℚ) :
    Except LotError (ParkingLot × Nat) :=
  if is_full lot then .error .lotFull
  else match firstFree lot.slots with
    | none => .error .lotFull
    | some i =>
        .ok ({ lot with
                slots := lot.slots.set i
                  (some { v with slot_number := some (i + 1), entry_time := some now }),
                vehicles := dictInsert lot.vehicles v.vehicle_id
                  { v with slot_number := some (i + 1), entry_time := some now },
                total_vehicles := lot.total_vehicles + 1 }, i + 1)

/-- Line 130-131 of `remove_vehicle`: `if vehicle.slot_number:` — the slot
cell is cleared only when `slot_number` is truthy (set and non-zero). -/
def clearSlot (slots : List (Option Vehicle)) (sn : Option Nat) : List (Option Vehicle) :=
  match sn with
  | some (n + 1) => slots.set n none
  | _ => slots

/-- `ParkingLot.remove_vehicle`, lines 119-135: `ValueError` when the id is
not in the dict; otherwise compute the fee at `now` (`datetime.now()` in the
source), add it to `revenue`, clear the slot cell, delete the dict entry,
and return the record and the fee. -/
def remove_vehicle (lot : ParkingLot) (vehicle_id : String) (now : ℚ) :
    Except LotError (ParkingLot × Vehicle × ℚ) :=
  match lookupVal lot.vehicles vehicle_id with
  | none => .error .notFound
  | some v =>
      .ok ({ lot with
              slots := clearSlot lot.slots v.slot_number,
              vehicles := delKey lot.vehicles vehicle_id,
              revenue := lot.revenue + get_parking_fee v now }, v, get_parking_fee v now)

/-- `ParkingLot.get_slot_status`, lines 158-162: the cell content for
`1 ≤ slot_number ≤ capacity`, `None` for every other integer. -/
def get_slot_status (lot : ParkingLot) (slot_number : Int) : Option Vehicle :=
  if 1 ≤ slot_number ∧ slot_number ≤ lot.capacity then
    lot.slots.getD (slot_number - 1).toNat none
  else none

/-- `ParkingLot.reset`, lines 168-171: fresh `None` slots and an empty
dict; `revenue`, `total_vehicles`, `hourly_rate` and `capacity` are
untouched. -/
def reset (lot : ParkingLot) : ParkingLot :=
  { lot with slots := List.replicate lot.capacity.toNat none, vehicles := [] }

/-- Number of occupied (non-`None`) cells of a slot list. -/
def countOccupied (slots : List (Option Vehicle)) : Nat :=
  slots.countP Option.isSome

/-- The GUI admission path `AutomatedParkingLotSystem.park_vehicle`,
lines 898-950.  The argument `vehicle_id` is the text-entry content after
the `.strip().upper()` of line 900 (reading and normalizing the entry is
presentation-side input acquisition); `owner` is the entry content after
the `.strip()` of line 901.  The path rejects an empty id (line 904) and
an id already in the dict (line 914) without touching the lot, defaults
an empty owner name to `"Unknown"` (lines 911-912), then delegates to
`ParkingLot.park_vehicle` (line 932). -/
def gui_park (lot : ParkingLot) (vehicle_id : String) (t : VehicleType) (owner : String)
    (now : ℚ) : Except LotError (ParkingLot × Nat) :=
  if vehicle_id = "" then .error .emptyId
  else if containsKey lot.vehicles vehicle_id then .error .duplicate
  else park_vehicle lot
    (mkVehicle vehicle_id t (if owner = "" then "Unknown" else owner)) now

/-- The GUI removal path `AutomatedParkingLotSystem.remove_vehicle`,
lines 1006-1042 (`vehicle_id` again pre-normalized per line 1008): reject
an empty id, else delegate to `ParkingLot.remove_vehicle` (whose
`ValueError` leaves the lot untouched). -/
def gui_remove (lot : ParkingLot) (vehicle_id : String) (now : ℚ) :
    Except LotError (ParkingLot × Vehicle × ℚ) :=
  if vehicle_id = "" then .error .emptyId
  else remove_vehicle lot vehicle_id now

/-- The body of the `while self.parking_lot.vehicles:` loop of
`AutomatedParkingLotSystem.emergency_clear`, lines 1154-1159: repeatedly
remove the first dict key via `ParkingLot.remove_vehicle` (swallowing any
exception).  Fuel bounds the iteration; one entry disappears per removal,
so `vehicles.length` fuel empties the dict. -/
def clearLoop : Nat → ParkingLot → ℚ → ParkingLot
  | 0, lot, _ => lot
  | fuel + 1, lot, now =>
      match lot.vehicles with
      | [] => lot
      | (k, _) :: _ =>
          match remove_vehicle lot k now with
          | .ok (lot', _, _) => clearLoop fuel lot' now
          | .error _ => clearLoop fuel lot now

/-- `AutomatedParkingLotSystem.emergency_clear`, lines 1139-1166 (with the
confirmation dialog answered yes): return unchanged when already empty,
otherwise run the removal loop until the dict is empty. -/
def emergency_clear (lot : ParkingLot) (now : ℚ) : ParkingLot :=
  if is_empty lot then lot
  else clearLoop lot.vehicles.length lot now

/-- One external call against the allocator: an admission (with the
caller-chosen identifier, category, owner and timestamp) or a release. -/
inductive Op
  | enter (vehicle_id : String) (t : VehicleType) (owner : String) (now : ℚ)
  | leave (vehicle_id : String) (now : ℚ)

/-- Apply one call directly against `ParkingLot` (the class API): an
exception leaves the state unchanged. -/
def applyOp (lot : ParkingLot) : Op → ParkingLot
  | .enter k t o now =>
      match park_vehicle lot (mkVehicle k t o) now with
      | .ok (l, _) => l
      | .error _ => lot
  | .leave k now =>
      match remove_vehicle lot k now with
      | .ok (l, _, _) => l
      | .error _ => lot

/-- Run a sequence of calls against the class API. -/
def runOps (lot : ParkingLot) (ops : List Op) : ParkingLot :=
  ops.foldl applyOp lot

/-- Apply one call through the GUI paths (`gui_park` / `gui_remove`),
which reject duplicate identifiers before touching the lot. -/
def applyGuarded (lot : ParkingLot) : Op → ParkingLot
  | .enter k t o now =>
      match gui_park lot k t o now with
      | .ok (l, _) => l
      | .error _ => lot
  | .leave k now =>
      match gui_remove lot k now with
      | .ok (l, _, _) => l
      | .error _ => lot

/-- Run a sequence of calls through the GUI paths. -/
def runGuarded (lot : ParkingLot) (ops : List Op) : ParkingLot :=
  ops.foldl applyGuarded lot

/-! ### The billed-hours formula versus the spec's ceiling -/

/-- The source's rounding trick `(h + 0.99) // 1` agrees with `⌈h⌉` exactly
when the fractional part of `h` is zero or at least `0.01`. -/
lemma floor_add_99 (h : ℚ) (hyp : Int.fract h = 0 ∨ 1 / 100 ≤ Int.fract h) :
    ⌊h + 99 / 100⌋ = ⌈h⌉ := by
  have hsplit : ((⌊h⌋ : ℚ) + Int.fract h) = h := Int.floor_add_fract h
  have hf1 : Int.fract h < 1 := Int.fract_lt_one h
  rcases hyp with h0 | hge
  · have hh : h = ((⌊h⌋ : ℤ) : ℚ) := by
      rw [h0, add_zero] at hsplit
      exact hsplit.symm
    obtain ⟨n, hn⟩ : ∃ n : ℤ, h = (n : ℚ) := ⟨⌊h⌋, hh⟩
    subst hn
    rw [Int.ceil_intCast, Int.floor_int_add]
    have h99 : ⌊(99 / 100 : ℚ)⌋ = 0 := by norm_num
    omega
  · have hceil : ⌈h⌉ = ⌊h⌋ + 1 := by
      rw [Int.ceil_eq_iff]
      push_cast
      constructor <;> linarith
    have hfloor : ⌊h + 99 / 100⌋ = ⌊h⌋ + 1 := by
      rw [Int.floor_eq_iff]
      push_cast
      constructor <;> linarith
    rw [hfloor, hceil]

/-- Claim C1 (amended): for a vehicle whose arrival timestamp is set, the
returned fee equals `ceil(max(elapsed, 1.0))` times the category's hourly
rate whenever the fractional part of `max(elapsed, 1.0)` is zero or at
least `0.01`; the source's `(hours + 0.99) // 1` trick undercharges the
ceiling by one hour when that fractional part lies in `(0, 0.01)`.
In particular the claim's two instances hold: at `arrival + 0.1h` the
fractional part is zero (the one-hour floor), at `arrival + 1.5h` it is
`0.5`, so the fee is `1 × rate` resp. `2 × rate` (witness below). -/
theorem fee_equals_ceiling_outside_gap (v : Vehicle) (entry : ℚ)
    (hv : v.entry_time = some entry) (ex : ℚ)
    (hfrac : Int.fract (max 1 ((ex - entry) / 3600)) = 0 ∨
      1 / 100 ≤ Int.fract (max 1 ((ex - entry) / 3600))) :
    get_parking_fee v ex = spec_fee entry ex v.vehicle_type := by
  simp only [get_parking_fee, spec_fee, hv]
  rw [floor_add_99 _ hfrac]

/-- Witness for C1 (amended): a Car parked at `t = 0` and released at
`t = 5400 s = 1.5 h` — the ceiling rule bills 2 hours. -/
theorem fee_equals_ceiling_outside_gap_witness :
    get_parking_fee ⟨"W1", .car, "w", some 0, some 1⟩ 5400 =
      spec_fee 0 5400 VehicleType.car ∧
    spec_fee 0 5400 VehicleType.car = 4 := by
  constructor
  · exact fee_equals_ceiling_outside_gap ⟨"W1", .car, "w", some 0, some 1⟩ 0 rfl 5400
      (by right; rw [show max 1 (((5400 : ℚ) - 0) / 3600) = 3 / 2 by norm_num]
          rw [Int.fract]; norm_num)
  · rw [spec_fee, show max 1 (((5400 : ℚ) - 0) / 3600) = 3 / 2 by norm_num,
      show (⌈(3 / 2 : ℚ)⌉ : ℤ) = 2 by rw [Int.ceil_eq_iff]; constructor <;> norm_num]
    norm_num [hourlyRate]

/-- Counterexample to C1 as stated: a Car parked at `t = 0` and released
at `t = 3618 s` (elapsed `1.005 h`).  The code bills
`(1.005 + 0.99) // 1 = 1` hour (fee 2.0), while `ceil(max(elapsed, 1.0))`
is `2` hours (fee 4.0). -/
theorem fee_ceiling_counterexample :
    get_parking_fee ⟨"C1", .car, "c", some 0, some 1⟩ 3618 = 2 ∧
    spec_fee 0 3618 VehicleType.car = 4 := by
  constructor
  · simp [get_parking_fee, hourlyRate]
    norm_num
  · rw [spec_fee, show max 1 (((3618 : ℚ) - 0) / 3600) = 201 / 200 by norm_num,
      show (⌈(201 / 200 : ℚ)⌉ : ℤ) = 2 by rw [Int.ceil_eq_iff]; constructor <;> norm_num]
    norm_num [hourlyRate]

/-! ### Fee edge cases -/

/-- Claim C9: a vehicle whose `entry_time` was never set is charged
exactly `0` at any exit time (lines 44-45). -/
theorem fee_zero_without_entry_time (v : Vehicle) (hv : v.entry_time = none) (ex : ℚ) :
    get_parking_fee v ex = 0 := by
  simp [get_parking_fee, hv]

/-- Witness for C9: a freshly constructed vehicle has no entry time and
is charged nothing. -/
theorem fee_zero_without_entry_time_witness :
    get_parking_fee (mkVehicle "N" VehicleType.car "n") 7 = 0 :=
  fee_zero_without_entry_time (mkVehicle "N" VehicleType.car "n") rfl 7

/-- Claim C10: when the exit time lies before the arrival time the elapsed
duration is negative, `max(1, hours)` clamps it to one billable hour, and
the fee is exactly one hour's rate — strictly positive, never negative. -/
theorem fee_negative_elapsed_min_charge (v : Vehicle) (entry : ℚ)
    (hv : v.entry_time = some entry) (ex : ℚ) (hlt : ex < entry) :
    get_parking_fee v ex = hourlyRate v.vehicle_type ∧
    0 < hourlyRate v.vehicle_type := by
  constructor
  · simp only [get_parking_fee, hv]
    have hneg : (ex - entry) / 3600 < 0 :=
      div_neg_of_neg_of_pos (by linarith) (by norm_num)
    have hmax : max 1 ((ex - entry) / 3600) = 1 := max_eq_left (by linarith)
    rw [hmax]
    have hfl : ⌊(1 : ℚ) + 99 / 100⌋ = 1 := by norm_num
    rw [hfl]
    push_cast
    ring
  · cases v.vehicle_type <;> norm_num [hourlyRate]

/-- Witness for C10: a Bike that "arrived" at `t = 100` and is released at
`t = 0` is charged exactly the one-hour Bike rate. -/
theorem fee_negative_elapsed_min_charge_witness :
    get_parking_fee ⟨"L", .bike, "o", some 100, some 1⟩ 0 = hourlyRate VehicleType.bike ∧
    0 < hourlyRate VehicleType.bike :=
  fee_negative_elapsed_min_charge ⟨"L", .bike, "o", some 100, some 1⟩ 100 rfl 0 (by norm_num)

/-! ### Construction with capacity below one -/

/-- Counterexample to C6 as stated: `ParkingLot.__init__` performs no
capacity validation (no `InvalidCapacityError` exists anywhere in the
source), so construction at capacity `0` does not fail — it returns an
ordinary allocator state (with an empty slot list, which `is_full`
reports as full). -/
theorem capacity_zero_constructs :
    mkParkingLot 0 = ⟨0, [], [], 2, 0, 0⟩ ∧ is_full (mkParkingLot 0) = true :=
  ⟨rfl, rfl⟩

/-- Claim C6 (amended): constructing a lot with capacity `< 1` succeeds
but yields an allocator with an empty slot list that is permanently full:
every admission fails with the lot-full error. -/
theorem capacity_lt_one_lot_unusable (c : Int) (hc : c < 1) (v : Vehicle) (now : ℚ) :
    (mkParkingLot c).slots = [] ∧
    is_full (mkParkingLot c) = true ∧
    park_vehicle (mkParkingLot c) v now = Except.error LotError.lotFull := by
  have h0 : c.toNat = 0 := by omega
  refine ⟨?_, ?_, ?_⟩
  · simp [mkParkingLot, h0]
  · simp [mkParkingLot, is_full, h0]
  · simp [mkParkingLot, park_vehicle, is_full, h0]

/-- Witness for C6 (amended) at capacity `-2`. -/
theorem capacity_lt_one_lot_unusable_witness :
    (mkParkingLot (-2)).slots = [] ∧
    is_full (mkParkingLot (-2)) = true ∧
    park_vehicle (mkParkingLot (-2)) (mkVehicle "Z" VehicleType.car "z") 0 =
      Except.error LotError.lotFull :=
  capacity_lt_one_lot_unusable (-2) (by norm_num) (mkVehicle "Z" VehicleType.car "z") 0

/-! ### Reset frame conditions -/

/-- Claim C7: `reset` re-creates the `None` slot list and clears the
identifier index, while `revenue`, `total_vehicles`, `capacity` and the
`hourly_rate` attribute all keep their previous values. -/
theorem reset_preserves_counters (lot : ParkingLot) :
    (reset lot).slots = List.replicate lot.capacity.toNat none ∧
    (reset lot).vehicles = [] ∧
    (reset lot).revenue = lot.revenue ∧
    (reset lot).total_vehicles = lot.total_vehicles ∧
    (reset lot).capacity = lot.capacity ∧
    (reset lot).hourly_rate = lot.hourly_rate :=
  ⟨rfl, rfl, rfl, rfl, rfl, rfl⟩

/-! ### Totality of the slot-status query -/

/-- `List.getD` with an in-bounds index is the indexed element. -/
lemma getD_eq_get (l : List (Option Vehicle)) (i : Nat) (h : i < l.length) :
    l.getD i none = l.get ⟨i, h⟩ := by
  induction l generalizing i with
  | nil => simp at h
  | cons x xs ih =>
      cases i with
      | zero => rfl
      | succ n => exact ih n (by simpa using h)

/-- Claim C8: `get_slot_status` is total over all integers.  In a state
whose slot list has length `capacity` (as every state the class builds),
a slot number in `[1, capacity]` returns the content of cell
`slot_number - 1` (an in-bounds read), and every other integer returns
`None` without any out-of-bounds access. -/
theorem get_slot_status_total (lot : ParkingLot) (n : Int)
    (hlen : lot.slots.length = lot.capacity.toNat) :
    (1 ≤ n → n ≤ lot.capacity →
      ∃ h : (n - 1).toNat < lot.slots.length,
        get_slot_status lot n = lot.slots.get ⟨(n - 1).toNat, h⟩) ∧
    (¬(1 ≤ n ∧ n ≤ lot.capacity) → get_slot_status lot n = none) := by
  constructor
  · intro h1 h2
    have hlt : (n - 1).toNat < lot.slots.length := by
      rw [hlen]
      omega
    refine ⟨hlt, ?_⟩
    rw [get_slot_status, if_pos ⟨h1, h2⟩]
    exact getD_eq_get _ _ hlt
  · intro hno
    rw [get_slot_status, if_neg hno]

/-- Witness for C8 on a concrete 2-slot lot: slot `1` returns its
occupant, slot `-3` returns `None`. -/
theorem get_slot_status_total_witness :
    get_slot_status ⟨2, [some ⟨"W", .suv, "w", some 0, some 1⟩, none],
        [("W", ⟨"W", .suv, "w", some 0, some 1⟩)], 2, 0, 1⟩ 1 =
      some ⟨"W", .suv, "w", some 0, some 1⟩ ∧
    get_slot_status ⟨2, [some ⟨"W", .suv, "w", some 0, some 1⟩, none],
        [("W", ⟨"W", .suv, "w", some 0, some 1⟩)], 2, 0, 1⟩ (-3) = none := by
  constructor
  · obtain ⟨h, he⟩ :=
      (get_slot_status_total ⟨2, [some ⟨"W", .suv, "w", some 0, some 1⟩, none],
          [("W", ⟨"W", .suv, "w", some 0, some 1⟩)], 2, 0, 1⟩ 1 rfl).1
        (by norm_num) (by norm_num)
    rw [he]
    rfl
  · exact (get_slot_status_total ⟨2, [some ⟨"W", .suv, "w", some 0, some 1⟩, none],
        [("W", ⟨"W", .suv, "w", some 0, some 1⟩)], 2, 0, 1⟩ (-3) rfl).2 (by norm_num)

/-! ### First-fit allocation -/

/-- A list with a `None` cell is not full. -/
lemma all_isSome_false_of_free (l : List (Option Vehicle)) (j : Nat)
    (hj : l.get? j = some none) : l.all Option.isSome = false := by
  have hmem : (none : Option Vehicle) ∈ l := List.get?_mem hj
  rw [Bool.eq_false_iff]
  intro hall
  rw [List.all_eq_true] at hall
  have := hall none hmem
  simp at this

/-- The scan of `park_vehicle` returns exactly the lowest free index. -/
lemma firstFree_min (l : List (Option Vehicle)) (j : Nat) (hj : l.get? j = some none)
    (hmin : ∀ i, i < j → l.get? i ≠ some none) : firstFree l = some j := by
  induction l generalizing j with
  | nil => simp at hj
  | cons x xs ih =>
      cases x with
      | none =>
          cases j with
          | zero => rfl
          | succ m => exact absurd rfl (hmin 0 (Nat.succ_pos m))
      | some w =>
          cases j with
          | zero => simp at hj
          | succ m =>
              have hj' : xs.get? m = some none := by simpa using hj
              have hmin' : ∀ i, i < m → xs.get? i ≠ some none := by
                intro i hi
                have := hmin (i + 1) (by omega)
                simpa using this
              simp [firstFree, ih m hj' hmin']

/-- Claim C4: whenever cell `j` is the lowest-indexed empty cell of the
slot list, `park_vehicle` succeeds, assigns exactly that cell, and
returns slot number `j + 1` — deterministic first-fit. -/
theorem park_first_fit (lot : ParkingLot) (v : Vehicle) (now : ℚ) (j : Nat)
    (hj : lot.slots.get? j = some none)
    (hmin : ∀ i, i < j → lot.slots.get? i ≠ some none) :
    ∃ lot', park_vehicle lot v now = Except.ok (lot', j + 1) ∧
      lot'.slots = lot.slots.set j
        (some { v with slot_number := some (j + 1), entry_time := some now }) := by
  have hnf : is_full lot = false := all_isSome_false_of_free lot.slots j hj
  have hff : firstFree lot.slots = some j := firstFree_min lot.slots j hj hmin
  refine ⟨{ lot with
      slots := lot.slots.set j
        (some { v with slot_number := some (j + 1), entry_time := some now }),
      vehicles := dictInsert lot.vehicles v.vehicle_id
        { v with slot_number := some (j + 1), entry_time := some now },
      total_vehicles := lot.total_vehicles + 1 }, ?_, rfl⟩
  simp [park_vehicle, hnf, hff]

/-- Witness for C4 on the claim's shape `[occupied, free, occupied, free]`:
the next admission lands in slot `2` (index 1), never slot `4`. -/
theorem park_first_fit_witness :
    ∃ lot', park_vehicle
        ⟨4, [some ⟨"P", .car, "p", some 0, some 1⟩, none,
             some ⟨"Q", .truck, "q", some 0, some 3⟩, none],
          [("P", ⟨"P", .car, "p", some 0, some 1⟩),
           ("Q", ⟨"Q", .truck, "q", some 0, some 3⟩)], 2, 0, 2⟩
        (mkVehicle "R" VehicleType.bike "r") 0 = Except.ok (lot', 1 + 1) ∧
      lot'.slots = [some ⟨"P", .car, "p", some 0, some 1⟩, none,
             some ⟨"Q", .truck, "q", some 0, some 3⟩, none].set 1
        (some { mkVehicle "R" VehicleType.bike "r" with
                  slot_number := some (1 + 1), entry_time := some 0 }) :=
  park_first_fit
    ⟨4, [some ⟨"P", .car, "p", some 0, some 1⟩, none,
         some ⟨"Q", .truck, "q", some 0, some 3⟩, none],
      [("P", ⟨"P", .car, "p", some 0, some 1⟩),
       ("Q", ⟨"Q", .truck, "q", some 0, some 3⟩)], 2, 0, 2⟩
    (mkVehicle "R" VehicleType.bike "r") 0 1 rfl
    (by
      intro i hi
      rw [Nat.lt_one_iff] at hi
      subst hi
      simp)

/-! ### Duplicate admission -/

/-- A fresh vehicle named "A" and the two states produced by parking it
twice (without release) into a 2-slot lot at `t = 0`. -/
def vDup : Vehicle := ⟨"A", .car, "x", none, none⟩

/-- State after the first `park_vehicle` of `vDup`: slot 1 holds the
record and the dict indexes it. -/
def lotDup1 : ParkingLot :=
  ⟨2, [some ⟨"A", .car, "x", some 0, some 1⟩, none],
    [("A", ⟨"A", .car, "x", some 0, some 1⟩)], 2, 0, 1⟩

/-- State after parking `vDup` a second time: both slots occupied, but the
dict holds only the second record — the first admission's index entry has
been overwritten while its slot stays occupied. -/
def lotDup2 : ParkingLot :=
  ⟨2, [some ⟨"A", .car, "x", some 0, some 1⟩, some ⟨"A", .car, "x", some 0, some 2⟩],
    [("A", ⟨"A", .car, "x", some 0, some 2⟩)], 2, 0, 2⟩

/-- Counterexample to C2 as stated: `ParkingLot.park_vehicle` performs no
duplicate-identifier check.  Admitting id "A" twice without a release does
NOT fail: the second call succeeds into slot 2 and overwrites the index
entry, leaving the first admission's record in its slot but unindexed —
the allocator's state is mutated, not left intact. -/
theorem duplicate_park_succeeds_counterexample :
    park_vehicle (mkParkingLot 2) vDup 0 = Except.ok (lotDup1, 1) ∧
    park_vehicle lotDup1 vDup 0 = Except.ok (lotDup2, 2) :=
  ⟨rfl, rfl⟩

/-- Claim C2 (amended): the duplicate rejection lives one layer up, in the
GUI admission path (line 914), which checks the index before calling
`ParkingLot.park_vehicle`: a duplicate identifier fails that path with
the duplicate error and leaves the allocator's state (slots, index,
counters, revenue) completely unchanged, so the first admission's record
is intact. -/
theorem gui_duplicate_rejected (lot : ParkingLot) (k : String) (t : VehicleType)
    (o : String) (now : ℚ) (hne : k ≠ "") (hdup : containsKey lot.vehicles k = true) :
    gui_park lot k t o now = Except.error LotError.duplicate ∧
    applyGuarded lot (Op.enter k t o now) = lot := by
  have h1 : gui_park lot k t o now = Except.error LotError.duplicate := by
    rw [gui_park, if_neg hne, if_pos hdup]
  exact ⟨h1, by simp [applyGuarded, h1]⟩

/-- Witness for C2 (amended): re-admitting id "A" on `lotDup1` through the
GUI path fails with the duplicate error and leaves the state unchanged. -/
theorem gui_duplicate_rejected_witness :
    gui_park lotDup1 "A" VehicleType.car "x" 0 = Except.error LotError.duplicate ∧
    applyGuarded lotDup1 (Op.enter "A" VehicleType.car "x" 0) = lotDup1 :=
  gui_duplicate_rejected lotDup1 "A" VehicleType.car "x" 0 (by decide) rfl

/-! ### Emergency clear accrues fees -/

/-- Two cars "A" and "B" admitted at `t = 0` into a 2-slot lot. -/
def lotC3 : ParkingLot :=
  runOps (mkParkingLot 2)
    [Op.enter "A" VehicleType.car "x" 0, Op.enter "B" VehicleType.car "y" 0]

/-- Claim C3 evaluated at a failing input (code bug): `emergency_clear`
removes every vehicle through `ParkingLot.remove_vehicle`, which COMPUTES
each fee and adds it to `revenue` (line 128) — although the code's own
confirmation dialog promises "Parking fees will NOT be collected".
Clearing a 2-car lot at the arrival instant empties the lot but raises
`revenue` from `0` to `4` (one billable hour × rate 2.0 per car), so
`totalRevenue` is NOT left unchanged. -/
theorem emergency_clear_accrues_fees :
    lotC3.revenue = 0 ∧
    countOccupied lotC3.slots = 2 ∧
    (emergency_clear lotC3 0).revenue = 4 ∧
    is_empty (emergency_clear lotC3 0) = true ∧
    (emergency_clear lotC3 0).vehicles = [] := by
  refine ⟨rfl, rfl, ?_, rfl, rfl⟩
  have hrev : (emergency_clear lotC3 0).revenue
      = 0 + get_parking_fee ⟨"A", .car, "x", some 0, some 1⟩ 0
          + get_parking_fee ⟨"B", .car, "y", some 0, some 2⟩ 0 := rfl
  rw [hrev]
  simp [get_parking_fee, hourlyRate]
  norm_num

/-! ### Invariant I1: index size equals occupied-slot count -/

/-- `List.set` at the written index (in bounds). -/
lemma get?_set_self {α : Type} (l : List α) (i : Nat) (a : α) (h : i < l.length) :
    (l.set i a).get? i = some a := by
  induction l generalizing i with
  | nil => simp at h
  | cons x xs ih =>
      cases i with
      | zero => rfl
      | succ n => exact ih n (by simpa using h)

/-- `List.set` leaves all other indices untouched. -/
lemma get?_set_ne {α : Type} (l : List α) (i j : Nat) (a : α) (hij : i ≠ j) :
    (l.set i a).get? j = l.get? j := by
  induction l generalizing i j with
  | nil => simp
  | cons x xs ih =>
      cases i with
      | zero =>
          cases j with
          | zero => exact absurd rfl hij
          | succ m => rfl
      | succ n =>
          cases j with
          | zero => rfl
          | succ m => simpa using ih n m (by omega)

/-- Writing a record into an empty cell raises the occupied count by one. -/
lemma countOccupied_set_some (l : List (Option Vehicle)) (i : Nat) (v : Vehicle)
    (h : l.get? i = some none) :
    countOccupied (l.set i (some v)) = countOccupied l + 1 := by
  induction l generalizing i with
  | nil => simp at h
  | cons x xs ih =>
      cases i with
      | zero =>
          have hx : x = none := by simpa using h
          subst hx
          simp [countOccupied, List.countP_cons]
      | succ n =>
          have hres := ih n (by simpa using h)
          cases x <;> simp [countOccupied, List.countP_cons] at hres ⊢ <;> omega

/-- Clearing an occupied cell lowers the occupied count by one. -/
lemma countOccupied_set_none (l : List (Option Vehicle)) (i : Nat) (v : Vehicle)
    (h : l.get? i = some (some v)) :
    countOccupied l = countOccupied (l.set i none) + 1 := by
  induction l generalizing i with
  | nil => simp at h
  | cons x xs ih =>
      cases i with
      | zero =>
          have hx : x = some v := by simpa using h
          subst hx
          simp [countOccupied, List.countP_cons]
      | succ n =>
          have hres := ih n (by simpa using h)
          cases x <;> simp [countOccupied, List.countP_cons] at hres ⊢ <;> omega

/-- A freshly built slot list is entirely empty. -/
lemma countOccupied_replicate (n : Nat) : countOccupied (List.replicate n none) = 0 := by
  induction n with
  | zero => rfl
  | succ m ih => simp [countOccupied, List.replicate, List.countP_cons, ih]

/-- The scan result points at an empty cell. -/
lemma firstFree_some_cell (l : List (Option Vehicle)) (i : Nat)
    (h : firstFree l = some i) : l.get? i = some none := by
  induction l generalizing i with
  | nil => simp [firstFree] at h
  | cons x xs ih =>
      cases x with
      | none =>
          simp [firstFree] at h
          subst h
          rfl
      | some w =>
          simp [firstFree] at h
          obtain ⟨m, hm, rfl⟩ := h
          simpa using ih m hm

/-- A key the dict does not contain is absent from the key list. -/
lemma not_mem_keys (m : List (String × Vehicle)) (k : String)
    (h : containsKey m k = false) : k ∉ m.map Prod.fst := by
  intro hk
  obtain ⟨p, hp, hpk⟩ := List.mem_map.mp hk
  have htrue : containsKey m k = true := by
    rw [containsKey, List.any_eq_true]
    exact ⟨p, hp, by simp [hpk]⟩
  rw [h] at htrue
  exact Bool.false_ne_true htrue

/-- Inserting a fresh key appends the binding (Python dict semantics). -/
lemma dictInsert_fresh (m : List (String × Vehicle)) (k : String) (v : Vehicle)
    (h : containsKey m k = false) : dictInsert m k v = m ++ [(k, v)] := by
  simp [dictInsert, h]

/-- A successful dict lookup returns a stored binding. -/
lemma lookupVal_mem (m : List (String × Vehicle)) (k : String) (v : Vehicle)
    (h : lookupVal m k = some v) : (k, v) ∈ m := by
  rw [lookupVal] at h
  cases hf : m.find? (fun p => p.1 == k) with
  | none => rw [hf] at h; simp at h
  | some p =>
      rw [hf] at h
      obtain ⟨a, b⟩ := p
      simp at h
      subst h
      have hmem := List.mem_of_find?_eq_some hf
      have hkey : a = k := by
        have hb := List.find?_some hf
        simpa using hb
      subst hkey
      exact hmem

/-- Deleted entries come from the dict and never carry the deleted key. -/
lemma delKey_mem (m : List (String × Vehicle)) (k : String) (p : String × Vehicle)
    (h : p ∈ delKey m k) : p ∈ m ∧ p.1 ≠ k := by
  rw [delKey, List.mem_filter] at h
  refine ⟨h.1, ?_⟩
  simpa using h.2

/-- Deletion preserves distinctness of keys. -/
lemma delKey_keys_nodup (m : List (String × Vehicle)) (k : String)
    (h : (m.map Prod.fst).Nodup) : ((delKey m k).map Prod.fst).Nodup :=
  List.Nodup.sublist ((List.filter_sublist _).map Prod.fst) h

/-- Deleting a present key from a dict with distinct keys removes exactly
one entry. -/
lemma delKey_length (m : List (String × Vehicle)) (k : String) (v : Vehicle)
    (hnd : (m.map Prod.fst).Nodup) (hm : (k, v) ∈ m) :
    (delKey m k).length + 1 = m.length := by
  induction m with
  | nil => simp at hm
  | cons p rest ih =>
      rw [List.map_cons, List.nodup_cons] at hnd
      rcases List.mem_cons.mp hm with heq | hmem
      · have hp1 : p.1 = k := by rw [← heq]
        have hstep : delKey (p :: rest) k = delKey rest k := by
          simp [delKey, List.filter_cons, hp1]
        rw [hstep]
        have hkn : k ∉ rest.map Prod.fst := by rw [← hp1]; exact hnd.1
        have hall : delKey rest k = rest := by
          rw [delKey]
          apply List.filter_eq_self.mpr
          intro q hq
          simp only [Bool.not_eq_true', beq_eq_false_iff_ne, ne_eq]
          intro hqk
          exact hkn (List.mem_map.mpr ⟨q, hq, hqk⟩)
        rw [hall]
        simp
      · have hkr : k ∈ rest.map Prod.fst := List.mem_map.mpr ⟨(k, v), hmem, rfl⟩
        have hp1 : p.1 ≠ k := fun he => hnd.1 (he ▸ hkr)
        have hstep : delKey (p :: rest) k = p :: delKey rest k := by
          simp [delKey, List.filter_cons, hp1]
        rw [hstep]
        simp only [List.length_cons]
        have := ih hnd.2 hmem
        omega

/-- The reachable-state invariant behind I1: keys are distinct, every
index entry is keyed by its record's identifier and points (via its
1-based slot number) at the slot cell holding exactly that record, and
the index size equals the occupied-cell count. -/
def Inv (lot : ParkingLot) : Prop :=
  (lot.vehicles.map Prod.fst).Nodup ∧
  (∀ p ∈ lot.vehicles, p.1 = p.2.vehicle_id ∧
    ∃ i, p.2.slot_number = some (i + 1) ∧ lot.slots.get? i = some (some p.2)) ∧
  lot.vehicles.length = countOccupied lot.slots

/-- A successful `park_vehicle` of a vehicle whose identifier is not yet
indexed preserves the invariant. -/
lemma inv_park (lot : ParkingLot) (v : Vehicle) (now : ℚ) (lot' : ParkingLot) (n : Nat)
    (hInv : Inv lot) (hfresh : containsKey lot.vehicles v.vehicle_id = false)
    (h : park_vehicle lot v now = Except.ok (lot', n)) : Inv lot' := by
  obtain ⟨hnd, hcells, hcount⟩ := hInv
  rw [park_vehicle] at h
  by_cases hfull : is_full lot = true
  · rw [if_pos hfull] at h
    exact absurd h (by simp)
  · rw [if_neg hfull] at h
    cases hff : firstFree lot.slots with
    | none =>
        rw [hff] at h
        exact absurd h (by simp)
    | some i =>
        rw [hff] at h
        obtain ⟨hl, -⟩ := Prod.mk.inj (Except.ok.inj h)
        subst hl
        have hcell : lot.slots.get? i = some none := firstFree_some_cell lot.slots i hff
        rw [dictInsert_fresh _ _ _ hfresh]
        refine ⟨?_, ?_, ?_⟩
        · rw [List.map_append]
          simp only [List.map_cons, List.map_nil]
          rw [List.nodup_append]
          refine ⟨hnd, List.nodup_singleton _, ?_⟩
          rw [List.disjoint_singleton]
          exact not_mem_keys _ _ hfresh
        · intro q hq
          rcases List.mem_append.mp hq with hold | hnew
          · obtain ⟨hqkey, j, hqsn, hqcell⟩ := hcells q hold
            refine ⟨hqkey, j, hqsn, ?_⟩
            have hne : i ≠ j := by
              intro he
              subst he
              rw [hqcell] at hcell
              simp at hcell
            rw [get?_set_ne _ _ _ _ hne]
            exact hqcell
          · have hq' : q = (v.vehicle_id,
                { v with slot_number := some (i + 1), entry_time := some now }) := by
              simpa using hnew
            subst hq'
            refine ⟨rfl, i, rfl, ?_⟩
            have hlt : i < lot.slots.length := by
              by_contra hge
              push_neg at hge
              rw [List.get?_eq_none.mpr hge] at hcell
              exact Option.noConfusion hcell
            exact get?_set_self _ _ _ hlt
        · rw [List.length_append]
          rw [countOccupied_set_some lot.slots i _ hcell]
          simp only [List.length_singleton]
          omega

/-- A successful `remove_vehicle` preserves the invariant. -/
lemma inv_remove (lot : ParkingLot) (k : String) (now : ℚ) (lot' : ParkingLot)
    (v : Vehicle) (fee : ℚ) (hInv : Inv lot)
    (h : remove_vehicle lot k now = Except.ok (lot', v, fee)) : Inv lot' := by
  obtain ⟨hnd, hcells, hcount⟩ := hInv
  rw [remove_vehicle] at h
  cases hlk : lookupVal lot.vehicles k with
  | none =>
      rw [hlk] at h
      exact absurd h (by simp)
  | some w =>
      rw [hlk] at h
      obtain ⟨hl, -⟩ := Prod.mk.inj (Except.ok.inj h)
      subst hl
      have hmem : (k, w) ∈ lot.vehicles := lookupVal_mem _ _ _ hlk
      obtain ⟨hkey, i, hsn, hcelli⟩ := hcells (k, w) hmem
      rw [hsn, show clearSlot lot.slots (some (i + 1)) = lot.slots.set i none from rfl]
      refine ⟨delKey_keys_nodup _ _ hnd, ?_, ?_⟩
      · intro q hq
        obtain ⟨hqmem, hqk⟩ := delKey_mem _ _ _ hq
        obtain ⟨hqkey, j, hqsn, hqcell⟩ := hcells q hqmem
        refine ⟨hqkey, j, hqsn, ?_⟩
        have hne : i ≠ j := by
          intro he
          subst he
          have hww : some (some w) = some (some q.2) := hcelli.symm.trans hqcell
          have hw2 : w = q.2 := by simpa using hww
          exact hqk (by rw [hqkey, ← hw2]; exact hkey.symm)
        rw [get?_set_ne _ _ _ _ hne]
        exact hqcell
      · have hlen := delKey_length lot.vehicles k w hnd hmem
        have hcnt := countOccupied_set_none lot.slots i w hcelli
        show (delKey lot.vehicles k).length = countOccupied (lot.slots.set i none)
        omega

/-- One guarded call (the GUI paths) preserves the invariant: errors leave
the state untouched, a successful admission went through the duplicate
check, and a successful removal is `remove_vehicle`. -/
lemma inv_applyGuarded (lot : ParkingLot) (op : Op) (hInv : Inv lot) :
    Inv (applyGuarded lot op) := by
  cases op with
  | enter k t o now =>
      cases hg : gui_park lot k t o now with
      | error e => simpa [applyGuarded, hg] using hInv
      | ok res =>
          obtain ⟨l2, n⟩ := res
          have hmain : applyGuarded lot (Op.enter k t o now) = l2 := by
            simp [applyGuarded, hg]
          rw [hmain]
          rw [gui_park] at hg
          by_cases he : k = ""
          · rw [if_pos he] at hg
            exact absurd hg (by simp)
          · rw [if_neg he] at hg
            by_cases hd : containsKey lot.vehicles k = true
            · rw [if_pos hd] at hg
              exact absurd hg (by simp)
            · rw [if_neg hd] at hg
              exact inv_park lot _ now l2 n ⟨hInv.1, hInv.2.1, hInv.2.2⟩
                (by simpa [mkVehicle] using Bool.eq_false_iff.mpr hd) hg
  | leave k now =>
      cases hg : gui_remove lot k now with
      | error e => simpa [applyGuarded, hg] using hInv
      | ok res =>
          obtain ⟨l2, v, fee⟩ := res
          have hmain : applyGuarded lot (Op.leave k now) = l2 := by
            simp [applyGuarded, hg]
          rw [hmain]
          rw [gui_remove] at hg
          by_cases he : k = ""
          · rw [if_pos he] at hg
            exact absurd hg (by simp)
          · rw [if_neg he] at hg
            exact inv_remove lot k now l2 v fee hInv hg

/-- The invariant holds along every guarded run. -/
lemma inv_runGuarded (lot : ParkingLot) (ops : List Op) (h : Inv lot) :
    Inv (runGuarded lot ops) := by
  induction ops generalizing lot with
  | nil => exact h
  | cons op rest ih => exact ih _ (inv_applyGuarded lot op h)

/-- The invariant holds in a freshly constructed lot. -/
lemma inv_mkParkingLot (c : Int) : Inv (mkParkingLot c) := by
  refine ⟨by simp [mkParkingLot], by simp [mkParkingLot], ?_⟩
  simp [mkParkingLot, countOccupied_replicate]

/-- Counterexample to C5 as stated: the sequence
`[admit "A", admit "A"]` on a capacity-2 lot never exceeds capacity (both
calls find a free slot and succeed, as the first two conjuncts show I1
still held after the first call), yet after the second call the index has
1 entry while 2 cells are occupied — `ParkingLot.park_vehicle` performs
no duplicate check, so I1 fails for raw call sequences with repeated
identifiers. -/
theorem i1_raw_counterexample :
    (runOps (mkParkingLot 2) [Op.enter "A" VehicleType.car "x" 0]).vehicles.length = 1 ∧
    countOccupied (runOps (mkParkingLot 2)
        [Op.enter "A" VehicleType.car "x" 0]).slots = 1 ∧
    (runOps (mkParkingLot 2) [Op.enter "A" VehicleType.car "x" 0,
        Op.enter "A" VehicleType.car "x" 0]).vehicles.length = 1 ∧
    countOccupied (runOps (mkParkingLot 2) [Op.enter "A" VehicleType.car "x" 0,
        Op.enter "A" VehicleType.car "x" 0]).slots = 2 :=
  ⟨rfl, rfl, rfl, rfl⟩

/-- Claim C5 (amended): for every sequence of admit/release calls that
goes through the program's admission guard (the GUI path, which rejects
duplicate identifiers before calling `ParkingLot.park_vehicle`; full-lot
admissions and unknown-identifier releases fail without mutation, so no
capacity side condition is needed), the number of index entries equals
the number of occupied slot cells after every call. -/
theorem i1_holds_guarded (c : Int) (ops : List Op) :
    (runGuarded (mkParkingLot c) ops).vehicles.length
      = countOccupied (runGuarded (mkParkingLot c) ops).slots :=
  (inv_runGuarded (mkParkingLot c) ops (inv_mkParkingLot c)).2.2

end AutoParking
